import Mathlib

/-!
Verification of the trading-bot core (`src/state/store.js`, `src/core/trader.js`,
`src/core/volatilityTrader.js`, `src/core/controller.js`, `src/api/binanceApi.js`)
against its natural-language specification.

Prices, quantities and money amounts are modelled as rationals (`ℚ`);
wall-clock timestamps as naturals (milliseconds).  JavaScript truthiness of
numbers (`x || y` falls back when `x` is `0`, `null` or `undefined`) is
modelled explicitly by `jsOrNum` / `jsDefault`; absent values are `Option`.
-/

/-- `base * (1 + pct / 100)` — `pctChange` from `src/utils/math.js`. -/
def pctChange (base pct : ℚ) : ℚ :=
  base * (1 + pct / 100)

/-- JS `Number(x) || fallback` where `x` is a possibly-absent number:
`null`/`undefined` coerce to `0`/`NaN`, both falsy, so any absent or zero
value falls back. -/
def jsOrNum (x : Option ℚ) (fallback : ℚ) : ℚ :=
  match x with
  | none => fallback
  | some v => if v = 0 then fallback else v

/-- JS `Number(cfg) || d` for config reads such as
`Number(config.takeProfitPercent) || 1`. -/
def jsDefault (x : ℚ) (d : ℚ) : ℚ :=
  if x = 0 then d else x

namespace Store

/-- `state.performance` in `src/state/store.js`. -/
structure Performance where
  totalTrades : Nat
  wins : Nat
  losses : Nat
  grossProfit : ℚ
  grossLoss : ℚ
  netProfit : ℚ
  feesPaid : ℚ
  maxDrawdown : ℚ
  deriving Repr, DecidableEq

/-- One entry of `state.equityHistory`: `{ time: Date.now(), equity: value }`. -/
structure EquitySample where
  time : Nat
  equity : ℚ
  deriving Repr, DecidableEq

/-- A closed-trader summary pushed by `removeTrader`. -/
structure TraderSummary where
  id : String
  realizedPnl : ℚ
  deriving Repr, DecidableEq

/-- Mutable `state` of `src/state/store.js` (the fields the Ledger
operations touch; `marketStatus` strings are irrelevant to the claims and
carried as-is). -/
structure State where
  balance : ℚ
  equity : ℚ
  pnlToday : ℚ
  activeTraders : List (String × ℚ)
  closedTraders : List TraderSummary
  performance : Performance
  equityHistory : List EquitySample
  peakEquity : ℚ
  deriving Repr, DecidableEq

/-- Initial store state for a given `config.startingBalanceUSDT`. -/
def initialState (startingBalance : ℚ) : State :=
  { balance := startingBalance
    equity := startingBalance
    pnlToday := 0
    activeTraders := []
    closedTraders := []
    performance :=
      { totalTrades := 0, wins := 0, losses := 0, grossProfit := 0
        grossLoss := 0, netProfit := 0, feesPaid := 0, maxDrawdown := 0 }
    equityHistory := []
    peakEquity := startingBalance }

/-- `setBalance(balance)`. -/
def setBalance (s : State) (balance : ℚ) : State :=
  { s with balance := balance }

/-- The drawdown expression of `setEquity` (store.js lines 45–47):
`peak === 0 ? 0 : ((peak - value) / peak) * 100`. -/
def drawdownCalc (peak value : ℚ) : ℚ :=
  if peak = 0 then 0 else (peak - value) / peak * 100

/-- `setEquity(equity)` (store.js lines 41–52): update `equity`, raise
`peakEquity`, fold the drawdown into `maxDrawdown`, and push a sample on the
500-bounded `equityHistory` (oldest shifted off). -/
def setEquity (s : State) (time : Nat) (value : ℚ) : State :=
  let peak := if value > s.peakEquity then value else s.peakEquity
  let drawdown := drawdownCalc peak value
  let maxDd :=
    if drawdown > s.performance.maxDrawdown then drawdown
    else s.performance.maxDrawdown
  let hist := s.equityHistory ++ [⟨time, value⟩]
  let hist' := if 500 < hist.length then hist.tail else hist
  { s with
    equity := value
    peakEquity := peak
    performance := { s.performance with maxDrawdown := maxDd }
    equityHistory := hist' }

/-- `recordTrade({ pnl, fees })` (store.js lines 67–85). -/
def recordTrade (s : State) (pnl fees : ℚ) : State :=
  let p := s.performance
  let p := { p with totalTrades := p.totalTrades + 1 }
  let p :=
    if 0 ≤ pnl then
      { p with wins := p.wins + 1, grossProfit := p.grossProfit + pnl }
    else
      { p with losses := p.losses + 1, grossLoss := p.grossLoss + |pnl| }
  let p := { p with feesPaid := p.feesPaid + fees }
  let p := { p with netProfit := p.grossProfit - p.grossLoss - p.feesPaid }
  { s with performance := p, pnlToday := s.pnlToday + (pnl - fees) }

/-- `upsertTrader(trader)`: set (merge) the snapshot under its id. -/
def upsertTrader (s : State) (id : String) (unrealizedPnl : ℚ) : State :=
  let rest := s.activeTraders.filter (fun kv => kv.1 ≠ id)
  { s with activeTraders := rest ++ [(id, unrealizedPnl)] }

/-- `removeTrader(id, summary)`: drop from the active map and unshift the
summary onto `closedTraders`, bounded to 50. -/
def removeTrader (s : State) (id : String) (summary : Option TraderSummary) : State :=
  let s := { s with activeTraders := s.activeTraders.filter (fun kv => kv.1 ≠ id) }
  match summary with
  | none => s
  | some sum =>
    let closed := sum :: s.closedTraders
    let closed' := if 50 < closed.length then closed.dropLast else closed
    { s with closedTraders := closed' }

/-- One Ledger mutation, as exported by `src/state/store.js`. -/
inductive Op where
  | setBalance (balance : ℚ)
  | setEquity (time : Nat) (value : ℚ)
  | recordTrade (pnl fees : ℚ)
  | upsertTrader (id : String) (unrealizedPnl : ℚ)
  | removeTrader (id : String) (summary : Option TraderSummary)
  deriving Repr, DecidableEq

/-- Apply one Ledger operation. -/
def applyOp (s : State) : Op → State
  | .setBalance b => setBalance s b
  | .setEquity t v => setEquity s t v
  | .recordTrade pnl fees => recordTrade s pnl fees
  | .upsertTrader id u => upsertTrader s id u
  | .removeTrader id sum => removeTrader s id sum

/-- Apply a sequence of Ledger operations, oldest first. -/
def applyOps (s : State) (ops : List Op) : State :=
  ops.foldl applyOp s

end Store

namespace Store

theorem setEquity_peak (s : State) (t : Nat) (v : ℚ) :
    (setEquity s t v).peakEquity = max s.peakEquity v := by
  simp only [setEquity]
  rcases le_or_lt v s.peakEquity with h | h
  · rw [if_neg (not_lt.mpr h), max_eq_left h]
  · rw [if_pos h, max_eq_right h.le]

theorem setEquity_maxDd (s : State) (t : Nat) (v : ℚ) :
    (setEquity s t v).performance.maxDrawdown =
      max s.performance.maxDrawdown (drawdownCalc (max s.peakEquity v) v) := by
  have hpeak : (if v > s.peakEquity then v else s.peakEquity) = max s.peakEquity v := by
    rcases le_or_lt v s.peakEquity with h | h
    · rw [if_neg (not_lt.mpr h), max_eq_left h]
    · rw [if_pos h, max_eq_right h.le]
  simp only [setEquity, hpeak]
  rcases le_or_lt (drawdownCalc (max s.peakEquity v) v) s.performance.maxDrawdown with h | h
  · rw [if_neg (not_lt.mpr h), max_eq_left h]
  · rw [if_pos h, max_eq_right h.le]

theorem setEquity_hist (s : State) (t : Nat) (v : ℚ) :
    (setEquity s t v).equityHistory =
      if s.equityHistory.length < 500 then s.equityHistory ++ [(⟨t, v⟩ : EquitySample)]
      else (s.equityHistory ++ [(⟨t, v⟩ : EquitySample)]).tail := by
  simp only [setEquity]
  by_cases h : s.equityHistory.length < 500
  · have hc : ¬ 500 < (s.equityHistory ++ [(⟨t, v⟩ : EquitySample)]).length := by
      simp only [List.length_append, List.length_singleton]
      omega
    rw [if_pos h, if_neg hc]
  · have hc : 500 < (s.equityHistory ++ [(⟨t, v⟩ : EquitySample)]).length := by
      simp only [List.length_append, List.length_singleton]
      omega
    rw [if_neg h, if_pos hc]

theorem applyOp_histLen_le (s : State) (op : Op) (h : s.equityHistory.length ≤ 500) :
    (applyOp s op).equityHistory.length ≤ 500 := by
  cases op with
  | setBalance b => simpa [applyOp, setBalance] using h
  | setEquity t v =>
      simp only [applyOp, setEquity]
      split
      · simp only [List.length_tail, List.length_append, List.length_singleton]
        omega
      · next hlen =>
          simp only [List.length_append, List.length_singleton] at hlen ⊢
          omega
  | recordTrade pnl fees => simpa [applyOp, recordTrade] using h
  | upsertTrader id u => simpa [applyOp, upsertTrader] using h
  | removeTrader id sum =>
      cases sum <;> simpa [applyOp, removeTrader] using h

theorem applyOps_histLen_le (s : State) (ops : List Op) (h : s.equityHistory.length ≤ 500) :
    (applyOps s ops).equityHistory.length ≤ 500 := by
  induction ops generalizing s with
  | nil => simpa [applyOps] using h
  | cons op rest ih => exact ih _ (applyOp_histLen_le s op h)

theorem applyOp_peak_mono (s : State) (op : Op) :
    s.peakEquity ≤ (applyOp s op).peakEquity := by
  cases op with
  | setBalance b => simp [applyOp, setBalance]
  | setEquity t v => simp [applyOp, setEquity_peak]
  | recordTrade pnl fees => simp [applyOp, recordTrade]
  | upsertTrader id u => simp [applyOp, upsertTrader]
  | removeTrader id sum => cases sum <;> simp [applyOp, removeTrader]

theorem applyOp_maxDd_mono (s : State) (op : Op) :
    s.performance.maxDrawdown ≤ (applyOp s op).performance.maxDrawdown := by
  cases op with
  | setBalance b => simp [applyOp, setBalance]
  | setEquity t v => simp [applyOp, setEquity_maxDd]
  | recordTrade pnl fees =>
      simp only [applyOp, recordTrade]
      split <;> simp
  | upsertTrader id u => simp [applyOp, upsertTrader]
  | removeTrader id sum => cases sum <;> simp [applyOp, removeTrader]

theorem applyOps_peak_mono (s : State) (ops : List Op) :
    s.peakEquity ≤ (applyOps s ops).peakEquity := by
  induction ops generalizing s with
  | nil => simp [applyOps]
  | cons op rest ih => exact le_trans (applyOp_peak_mono s op) (ih (applyOp s op))

theorem applyOps_maxDd_mono (s : State) (ops : List Op) :
    s.performance.maxDrawdown ≤ (applyOps s ops).performance.maxDrawdown := by
  induction ops generalizing s with
  | nil => simp [applyOps]
  | cons op rest ih => exact le_trans (applyOp_maxDd_mono s op) (ih (applyOp s op))

end Store

/-- C3. `recordTrade{pnl, fees}` increments `totalTrades`; splits the trade
into a win (`grossProfit += pnl`) when `pnl ≥ 0` and otherwise a loss
(`grossLoss += |pnl|`); always adds `fees` to `feesPaid`; re-establishes
`netProfit = grossProfit − grossLoss − feesPaid`; and adds `pnl − fees` to
`pnlToday`. -/
theorem c3_recordTrade_semantics (s : Store.State) (pnl fees : ℚ) :
    (Store.recordTrade s pnl fees).performance.totalTrades
        = s.performance.totalTrades + 1 ∧
    (Store.recordTrade s pnl fees).performance.wins
        = (if 0 ≤ pnl then s.performance.wins + 1 else s.performance.wins) ∧
    (Store.recordTrade s pnl fees).performance.losses
        = (if 0 ≤ pnl then s.performance.losses else s.performance.losses + 1) ∧
    (Store.recordTrade s pnl fees).performance.grossProfit
        = (if 0 ≤ pnl then s.performance.grossProfit + pnl else s.performance.grossProfit) ∧
    (Store.recordTrade s pnl fees).performance.grossLoss
        = (if 0 ≤ pnl then s.performance.grossLoss else s.performance.grossLoss + |pnl|) ∧
    (Store.recordTrade s pnl fees).performance.feesPaid
        = s.performance.feesPaid + fees ∧
    (Store.recordTrade s pnl fees).performance.netProfit
        = (Store.recordTrade s pnl fees).performance.grossProfit
          - (Store.recordTrade s pnl fees).performance.grossLoss
          - (Store.recordTrade s pnl fees).performance.feesPaid ∧
    (Store.recordTrade s pnl fees).pnlToday = s.pnlToday + (pnl - fees) := by
  by_cases h : 0 ≤ pnl <;>
    simp [Store.recordTrade, h]

/-- C4. `setEquity(v)` appends one `{time, equity = v}` sample, evicting the
oldest once the series holds 500 entries; `peakEquity` becomes
`max(peakEquity, v)`; `maxDrawdown` becomes the running max with
`(peak − v) / peak × 100`; and over every sequence of Ledger operations the
peak and the max drawdown are non-decreasing while the series length never
exceeds 500. -/
theorem c4_equity_series_invariants (s : Store.State) (t : Nat) (v : ℚ)
    (startingBalance : ℚ) (ops : List Store.Op) :
    ((Store.setEquity s t v).equityHistory =
      if s.equityHistory.length < 500
        then s.equityHistory ++ [(⟨t, v⟩ : Store.EquitySample)]
      else (s.equityHistory ++ [(⟨t, v⟩ : Store.EquitySample)]).tail) ∧
    ((Store.setEquity s t v).peakEquity = max s.peakEquity v) ∧
    ((Store.setEquity s t v).performance.maxDrawdown =
      max s.performance.maxDrawdown (Store.drawdownCalc (max s.peakEquity v) v)) ∧
    (s.peakEquity ≤ (Store.applyOps s ops).peakEquity) ∧
    (s.performance.maxDrawdown ≤ (Store.applyOps s ops).performance.maxDrawdown) ∧
    ((Store.applyOps (Store.initialState startingBalance) ops).equityHistory.length ≤ 500) :=
  ⟨Store.setEquity_hist s t v, Store.setEquity_peak s t v, Store.setEquity_maxDd s t v,
   Store.applyOps_peak_mono s ops, Store.applyOps_maxDd_mono s ops,
   Store.applyOps_histLen_le _ ops (by simp [Store.initialState])⟩

/-- C9 (implicit). When `peakEquity = 0` at the time of a `setEquity(v)` call,
the drawdown computed by the guarded expression is `0` (no division by zero),
so `maxDrawdown` only folds in `0`. -/
theorem c9_zero_peak_drawdown_guard (s : Store.State) (t : Nat) (v : ℚ)
    (h : s.peakEquity = 0) :
    Store.drawdownCalc (if v > s.peakEquity then v else s.peakEquity) v = 0 ∧
    (Store.setEquity s t v).performance.maxDrawdown
      = max s.performance.maxDrawdown 0 := by
  have hdd : Store.drawdownCalc (max s.peakEquity v) v = 0 := by
    rw [h]
    rcases le_or_lt v 0 with hv | hv
    · rw [max_eq_left hv, Store.drawdownCalc, if_pos rfl]
    · rw [max_eq_right hv.le, Store.drawdownCalc, if_neg (ne_of_gt hv)]
      field_simp
  constructor
  · have : (if v > s.peakEquity then v else s.peakEquity) = max s.peakEquity v := by
      rcases le_or_lt v s.peakEquity with h2 | h2
      · rw [if_neg (not_lt.mpr h2), max_eq_left h2]
      · rw [if_pos h2, max_eq_right h2.le]
    rw [this, hdd]
  · rw [Store.setEquity_maxDd, hdd]

/-- Witness for C9 at a concrete zero-peak state. -/
theorem c9_zero_peak_drawdown_guard_witness :
    Store.drawdownCalc
        (if (-5 : ℚ) > (Store.initialState 0).peakEquity then (-5 : ℚ)
         else (Store.initialState 0).peakEquity) (-5) = 0 ∧
    (Store.setEquity (Store.initialState 0) 7 (-5)).performance.maxDrawdown
      = max (Store.initialState 0).performance.maxDrawdown 0 :=
  c9_zero_peak_drawdown_guard (Store.initialState 0) 7 (-5) rfl

/-- Position direction (`"LONG"` / `"SHORT"` strings in the source). -/
inductive Direction where
  | LONG
  | SHORT
  deriving Repr, DecidableEq

/-- Order side. -/
inductive Side where
  | BUY
  | SELL
  deriving Repr, DecidableEq

/-- `direction === "LONG" ? 1 : -1` (`_calcPnl` in both traders). -/
def dirSign : Direction → ℚ
  | .LONG => 1
  | .SHORT => -1

/-- The configuration fields the core reads (`src/utils/config.js` values). -/
structure Config where
  mode : String
  levelSpacingPercent : ℚ
  takeProfitPercent : ℚ
  stopLossPercent : ℚ
  volatilityTakeProfitPercent : ℚ
  volatilityStopLossPercent : ℚ
  feeRate : ℚ
  deriving Repr, DecidableEq

/-- `err.message.includes(pat)` on exchange errors. -/
def msgIncludes (msg pat : String) : Bool :=
  decide (pat.data <:+: msg.data)

/-- Result of an adapter order-placement call: a normalised order id, or a
thrown `ExchangeError` whose message may embed a `-xxxx` code. -/
inductive PlaceResult where
  | ok (orderId : String)
  | err (msg : String)
  deriving Repr, DecidableEq

namespace Trader

/-- `_getTakeProfitPercent`: `Number(config.takeProfitPercent) || 1`. -/
def getTakeProfitPercent (c : Config) : ℚ :=
  jsDefault c.takeProfitPercent 1

/-- `_getStopLossPercent`: `Number(config.stopLossPercent) || 1`. -/
def getStopLossPercent (c : Config) : ℚ :=
  jsDefault c.stopLossPercent 1

/-- An entry order recorded in `pendingEntriesById`. -/
structure PendingEntry where
  orderId : String
  direction : Direction
  price : ℚ
  quantity : ℚ
  levelIndex : Int
  deriving Repr, DecidableEq

/-- An exit order recorded in `pendingExitsById`. -/
structure PendingExit where
  orderId : String
  positionId : String
  reason : String
  price : ℚ
  deriving Repr, DecidableEq

/-- A position as built by `_onOrderFilled` (trader.js lines 224–236);
`isClosing` starts absent (falsy). -/
structure Position where
  id : String
  direction : Direction
  entryOrderId : String
  entryPrice : ℚ
  quantity : ℚ
  takeProfitPrice : ℚ
  stopLossPrice : ℚ
  tpOrderId : Option String
  slOrderId : Option String
  levelIndex : Int
  isClosing : Bool
  deriving Repr, DecidableEq

/-- The entry branch of `_onOrderFilled` (trader.js lines 210–238): consume a
pending entry and build the position with its TP/SL levels from the fill
price (`Number(event.price || pendingEntry.price)`). -/
def positionFromEntryFill (c : Config) (pe : PendingEntry) (eventOrderId : String)
    (eventPrice : Option ℚ) : Position :=
  let entryPrice := jsOrNum eventPrice pe.price
  let tpPercent := getTakeProfitPercent c
  let slPercent := getStopLossPercent c
  let takeProfitPrice :=
    match pe.direction with
    | .LONG => pctChange entryPrice tpPercent
    | .SHORT => pctChange entryPrice (-tpPercent)
  let stopLossPrice :=
    match pe.direction with
    | .LONG => pctChange entryPrice (-slPercent)
    | .SHORT => pctChange entryPrice slPercent
  { id := "POS-" ++ eventOrderId
    direction := pe.direction
    entryOrderId := eventOrderId
    entryPrice := entryPrice
    quantity := pe.quantity
    takeProfitPrice := takeProfitPrice
    stopLossPrice := stopLossPrice
    tpOrderId := none
    slOrderId := none
    levelIndex := pe.levelIndex
    isClosing := false }

/-- `triggerHit` in `_placeExitOrders` (trader.js lines 267–269). -/
def slTriggerHit (pos : Position) (currentPrice : ℚ) : Prop :=
  match pos.direction with
  | .LONG => currentPrice ≤ pos.stopLossPrice
  | .SHORT => pos.stopLossPrice ≤ currentPrice

/-- `closeToTrigger` in `_placeExitOrders` (trader.js line 270):
`|current − sl| ≤ current × 0.0002`. -/
def slCloseToTrigger (pos : Position) (currentPrice : ℚ) : Prop :=
  |currentPrice - pos.stopLossPrice| ≤ currentPrice * (2 / 10000)

instance (pos : Position) (p : ℚ) : Decidable (slTriggerHit pos p) := by
  unfold slTriggerHit
  cases pos.direction <;> infer_instance

instance (pos : Position) (p : ℚ) : Decidable (slCloseToTrigger pos p) := by
  unfold slCloseToTrigger
  infer_instance

/-- How `_placeExitOrders` (trader.js lines 262–341) ends. -/
inductive ExitOutcome where
  | threw
  | marketClosed (reason : String) (price : ℚ)
  | placed (tpId slId : String)
  deriving Repr, DecidableEq

/-- `_placeExitOrders(position)` given the adapter's responses for the TP and
SL placements.  Returns the position as this function leaves it, the outcome
(`marketClosed` stands for the `_closePosition` continuation, modelled
separately), and the `pendingExitsById` records it inserts. -/
def placeExitOrders (lastPrice : Option ℚ) (pos : Position)
    (tpResult slResult : PlaceResult) :
    Position × ExitOutcome × List PendingExit :=
  let currentPrice := jsOrNum lastPrice pos.entryPrice
  match tpResult with
  | .err _ => (pos, .threw, [])
  | .ok tpId =>
    if slTriggerHit pos currentPrice ∨ slCloseToTrigger pos currentPrice then
      (pos, .marketClosed "stop-loss" currentPrice, [])
    else
      match slResult with
      | .err msg =>
        if msgIncludes msg "-2021" then
          (pos, .marketClosed "stop-loss" currentPrice, [])
        else (pos, .threw, [])
      | .ok slId =>
        let pos' := { pos with tpOrderId := some tpId, slOrderId := some slId }
        (pos', .placed tpId slId,
          [ { orderId := tpId, positionId := pos.id
              reason := "take-profit", price := pos.takeProfitPrice },
            { orderId := slId, positionId := pos.id
              reason := "stop-loss", price := pos.stopLossPrice } ])

end Trader

/-- C2. For every Grid entry fill, the exit levels of the created position
satisfy `takeProfitPrice = e × (1 ± tp/100)` and `stopLossPrice = e × (1 ∓
sl/100)` (upper signs for LONG), i.e. the TP and SL offsets carry the sign of
the direction with magnitudes `e × tp/100` and `e × sl/100`. -/
theorem c2_grid_exit_levels (c : Config) (pe : Trader.PendingEntry)
    (oid : String) (eventPrice : Option ℚ) :
    (Trader.positionFromEntryFill c pe oid eventPrice).takeProfitPrice
      = (Trader.positionFromEntryFill c pe oid eventPrice).entryPrice
        * (1 + dirSign pe.direction * Trader.getTakeProfitPercent c / 100) ∧
    (Trader.positionFromEntryFill c pe oid eventPrice).stopLossPrice
      = (Trader.positionFromEntryFill c pe oid eventPrice).entryPrice
        * (1 - dirSign pe.direction * Trader.getStopLossPercent c / 100) ∧
    (Trader.positionFromEntryFill c pe oid eventPrice).takeProfitPrice
        - (Trader.positionFromEntryFill c pe oid eventPrice).entryPrice
      = dirSign pe.direction
        * ((Trader.positionFromEntryFill c pe oid eventPrice).entryPrice
           * Trader.getTakeProfitPercent c / 100) ∧
    (Trader.positionFromEntryFill c pe oid eventPrice).entryPrice
        - (Trader.positionFromEntryFill c pe oid eventPrice).stopLossPrice
      = dirSign pe.direction
        * ((Trader.positionFromEntryFill c pe oid eventPrice).entryPrice
           * Trader.getStopLossPercent c / 100) := by
  cases hd : pe.direction <;>
    simp only [Trader.positionFromEntryFill, pctChange, dirSign, hd] <;>
    refine ⟨by ring, by ring, by ring, by ring⟩

/-- C5. When the Grid SL placement is rejected with exchange code `-2021`
("would immediately trigger"), `_placeExitOrders` records no `slOrderId` (and
no pending exits) and immediately market-closes the position with reason
`stop-loss`. -/
theorem c5_sl_rejection_2021 (lastPrice : Option ℚ) (pos : Trader.Position)
    (tpId msg : String)
    (hsl : pos.slOrderId = none)
    (hmsg : msgIncludes msg "-2021" = true)
    (hsafe : ¬ (Trader.slTriggerHit pos (jsOrNum lastPrice pos.entryPrice)
                ∨ Trader.slCloseToTrigger pos (jsOrNum lastPrice pos.entryPrice))) :
    (Trader.placeExitOrders lastPrice pos (.ok tpId) (.err msg)).1.slOrderId = none ∧
    (Trader.placeExitOrders lastPrice pos (.ok tpId) (.err msg)).2.1
      = Trader.ExitOutcome.marketClosed "stop-loss" (jsOrNum lastPrice pos.entryPrice) ∧
    (Trader.placeExitOrders lastPrice pos (.ok tpId) (.err msg)).2.2 = [] := by
  simp only [Trader.placeExitOrders, if_neg hsafe, hmsg, if_pos]
  exact ⟨hsl, trivial, trivial⟩

/-- Witness for C5: LONG position entered at 100 with SL 99, current price
100, SL placement rejected with a `-2021` message. -/
theorem c5_sl_rejection_2021_witness :
    (Trader.placeExitOrders (some 100)
      { id := "POS-1", direction := .LONG, entryOrderId := "1", entryPrice := 100
        quantity := 1, takeProfitPrice := 101, stopLossPrice := 99
        tpOrderId := none, slOrderId := none, levelIndex := -1, isClosing := false }
      (.ok "TP1") (.err "-2021")).1.slOrderId = none ∧
    (Trader.placeExitOrders (some 100)
      { id := "POS-1", direction := .LONG, entryOrderId := "1", entryPrice := 100
        quantity := 1, takeProfitPrice := 101, stopLossPrice := 99
        tpOrderId := none, slOrderId := none, levelIndex := -1, isClosing := false }
      (.ok "TP1") (.err "-2021")).2.1
      = Trader.ExitOutcome.marketClosed "stop-loss"
          (jsOrNum (some 100)
            ({ id := "POS-1", direction := .LONG, entryOrderId := "1", entryPrice := 100
               quantity := 1, takeProfitPrice := 101, stopLossPrice := 99
               tpOrderId := none, slOrderId := none, levelIndex := -1
               isClosing := false } : Trader.Position).entryPrice) ∧
    (Trader.placeExitOrders (some 100)
      { id := "POS-1", direction := .LONG, entryOrderId := "1", entryPrice := 100
        quantity := 1, takeProfitPrice := 101, stopLossPrice := 99
        tpOrderId := none, slOrderId := none, levelIndex := -1, isClosing := false }
      (.ok "TP1") (.err "-2021")).2.2 = [] :=
  c5_sl_rejection_2021 (some 100)
    { id := "POS-1", direction := .LONG, entryOrderId := "1", entryPrice := 100
      quantity := 1, takeProfitPrice := 101, stopLossPrice := 99
      tpOrderId := none, slOrderId := none, levelIndex := -1, isClosing := false }
    "TP1" "-2021" rfl (by decide) (by
      simp [Trader.slTriggerHit, Trader.slCloseToTrigger, jsOrNum]
      norm_num)

/-- JS `Number(x.toFixed(d))`: round to `d` decimal places (ties to the
larger value, as ECMA specifies). -/
def toFixed (digits : Nat) (x : ℚ) : ℚ :=
  (round (x * 10 ^ digits) : ℤ) / 10 ^ digits

/-- An adapter call recorded while running a strategy step. -/
inductive ApiCall where
  | placeLimit (side : Side) (quantity price : ℚ) (reduceOnly : Bool)
  | placeStopLimit (side : Side) (quantity stopPrice : ℚ) (reduceOnly : Bool)
  | placeMarket (side : Side) (quantity : ℚ)
  | cancelOrder (orderId : String)
  | cancelAllOpenOrders
  | removeTrader (id : String)
  | onDestroy (symbol : String) (pnl : Option ℚ)
  | recordTrade (pnl fees : ℚ)
  deriving Repr, DecidableEq

namespace VolTrader

/-- `_getTakeProfitPercent`: `Number(config.volatilityTakeProfitPercent) || 3`. -/
def getTakeProfitPercent (c : Config) : ℚ :=
  jsDefault c.volatilityTakeProfitPercent 3

/-- `_getStopLossPercent`: `Number(config.volatilityStopLossPercent) || 6`. -/
def getStopLossPercent (c : Config) : ℚ :=
  jsDefault c.volatilityStopLossPercent 6

/-- A Volatility leg (volatilityTrader.js lines 88–97 / 111–120). -/
structure VolPosition where
  id : String
  direction : Direction
  entryPrice : ℚ
  quantity : ℚ
  takeProfitPrice : ℚ
  stopLossPrice : ℚ
  tpOrderId : Option String
  slOrderId : Option String
  isClosing : Bool
  deriving Repr, DecidableEq

/-- The TP (= SL) side for exiting a leg: `SELL` for LONG, `BUY` for SHORT. -/
def exitSide : Direction → Side
  | .LONG => .SELL
  | .SHORT => .BUY

/-- `pastBase` in `_replaceExitsAfterTp` (volatilityTrader.js lines 228–230):
the current price has already moved through the base price against the
surviving leg. -/
def pastBase (dir : Direction) (currentPrice basePrice : ℚ) : Prop :=
  match dir with
  | .LONG => currentPrice ≤ basePrice
  | .SHORT => basePrice ≤ currentPrice

instance (dir : Direction) (c b : ℚ) : Decidable (pastBase dir c b) := by
  unfold pastBase
  cases dir <;> infer_instance

/-- How `_replaceExitsAfterTp` ends: either the surviving leg is market-closed
(`_closePosition`, modelled separately, always with reason `base-close`), or
its exits were rewritten (new TP id, and the re-placed SL id when that
placement succeeded). -/
inductive ReplaceOutcome where
  | closedAtMarket (reason : String) (price : ℚ)
  | rewritten (tpId : String) (slId : Option String)
  deriving Repr, DecidableEq

/-- `_replaceExitsAfterTp(remainingPos)` (volatilityTrader.js lines 201–291),
given the adapter's results for the new TP and the re-placed SL.  Returns the
surviving position as the function leaves it, the updated `pendingExitsById`,
the outcome, and the adapter calls attempted (cancellation failures are
swallowed by the source, so cancel calls carry no result here). -/
def replaceExitsAfterTp (basePrice : ℚ) (lastPrice : Option ℚ)
    (pendingExits : List Trader.PendingExit) (pos : VolPosition)
    (newTpResult newSlResult : PlaceResult) :
    VolPosition × List Trader.PendingExit × ReplaceOutcome × List ApiCall :=
  let step1 :=
    match pos.tpOrderId with
    | some tid =>
        ({ pos with tpOrderId := none },
         pendingExits.filter (fun (pe : Trader.PendingExit) => pe.orderId ≠ tid),
         [ApiCall.cancelOrder tid])
    | none => (pos, pendingExits, [])
  let pos1 := step1.1
  let pend1 := step1.2.1
  let acts1 := step1.2.2
  let step2 :=
    match pos1.slOrderId with
    | some sid =>
        ({ pos1 with slOrderId := none },
         pend1.filter (fun (pe : Trader.PendingExit) => pe.orderId ≠ sid),
         acts1 ++ [ApiCall.cancelOrder sid])
    | none => (pos1, pend1, acts1)
  let pos2 := step2.1
  let pend2 := step2.2.1
  let acts2 := step2.2.2
  let tpSide := exitSide pos2.direction
  let currentPrice := jsOrNum lastPrice basePrice
  if pastBase pos2.direction currentPrice basePrice then
    (pos2, pend2, .closedAtMarket "base-close" currentPrice,
     acts2 ++ [ApiCall.placeMarket tpSide pos2.quantity])
  else
    match newTpResult with
    | .err _ =>
        (pos2, pend2, .closedAtMarket "base-close" currentPrice,
         acts2 ++ [ApiCall.placeLimit tpSide pos2.quantity (toFixed 6 basePrice) true,
                   ApiCall.placeMarket tpSide pos2.quantity])
    | .ok tpId =>
        let acts3 :=
          acts2 ++ [ApiCall.placeLimit tpSide pos2.quantity (toFixed 6 basePrice) true,
                    ApiCall.placeStopLimit tpSide pos2.quantity
                      (toFixed 6 pos2.stopLossPrice) true]
        let pos3 := { pos2 with tpOrderId := some tpId, takeProfitPrice := basePrice }
        let pend3 := pend2 ++
          [{ orderId := tpId, positionId := pos2.id
             reason := "base-close", price := basePrice }]
        match newSlResult with
        | .ok sid =>
            ({ pos3 with slOrderId := some sid },
             pend3 ++ [{ orderId := sid, positionId := pos2.id
                         reason := "stop-loss", price := pos2.stopLossPrice }],
             .rewritten tpId (some sid), acts3)
        | .err _ => (pos3, pend3, .rewritten tpId none, acts3)

end VolTrader

/-- C1. After the first Volatility TP, `_replaceExitsAfterTp` leaves the
surviving position with `takeProfitPrice = basePrice`, having placed a
reduce-only limit at the base price and re-placed the SL at the original
`stopLossPrice`; if the current price is already past the base price against
the surviving leg, or the new TP placement fails, it instead market-closes
with reason `base-close`. -/
theorem c1_volatility_tp_rewrite (basePrice : ℚ) (lastPrice : Option ℚ)
    (pend : List Trader.PendingExit) (pos : VolTrader.VolPosition)
    (tpId slId failMsg : String) :
    (¬ VolTrader.pastBase pos.direction (jsOrNum lastPrice basePrice) basePrice →
      (∀ slRes : PlaceResult,
        (VolTrader.replaceExitsAfterTp basePrice lastPrice pend pos
            (.ok tpId) slRes).1.takeProfitPrice = basePrice ∧
        ApiCall.placeLimit (VolTrader.exitSide pos.direction) pos.quantity
            (toFixed 6 basePrice) true
          ∈ (VolTrader.replaceExitsAfterTp basePrice lastPrice pend pos
              (.ok tpId) slRes).2.2.2 ∧
        ApiCall.placeStopLimit (VolTrader.exitSide pos.direction) pos.quantity
            (toFixed 6 pos.stopLossPrice) true
          ∈ (VolTrader.replaceExitsAfterTp basePrice lastPrice pend pos
              (.ok tpId) slRes).2.2.2 ∧
        ({ orderId := tpId, positionId := pos.id
           reason := "base-close", price := basePrice } : Trader.PendingExit)
          ∈ (VolTrader.replaceExitsAfterTp basePrice lastPrice pend pos
              (.ok tpId) slRes).2.1) ∧
      ({ orderId := slId, positionId := pos.id
         reason := "stop-loss", price := pos.stopLossPrice } : Trader.PendingExit)
        ∈ (VolTrader.replaceExitsAfterTp basePrice lastPrice pend pos
            (.ok tpId) (.ok slId)).2.1) ∧
    (VolTrader.pastBase pos.direction (jsOrNum lastPrice basePrice) basePrice →
      ∀ tpRes slRes : PlaceResult,
        (VolTrader.replaceExitsAfterTp basePrice lastPrice pend pos tpRes slRes).2.2.1
          = VolTrader.ReplaceOutcome.closedAtMarket "base-close"
              (jsOrNum lastPrice basePrice)) ∧
    (¬ VolTrader.pastBase pos.direction (jsOrNum lastPrice basePrice) basePrice →
      ∀ slRes : PlaceResult,
        (VolTrader.replaceExitsAfterTp basePrice lastPrice pend pos
            (.err failMsg) slRes).2.2.1
          = VolTrader.ReplaceOutcome.closedAtMarket "base-close"
              (jsOrNum lastPrice basePrice)) := by
  obtain ⟨pid, dir, ep, q, tpp, slp, tpo, slo, closing⟩ := pos
  refine ⟨fun h => ⟨fun slRes => ?_, ?_⟩, fun h tpRes slRes => ?_, fun h slRes => ?_⟩
  · cases tpo <;> cases slo <;> cases slRes <;>
      simp [VolTrader.replaceExitsAfterTp, h]
  · have hne := h
    cases tpo <;> cases slo <;>
      simp [VolTrader.replaceExitsAfterTp, hne]
  · cases tpo <;> cases slo <;> cases tpRes <;> cases slRes <;>
      simp [VolTrader.replaceExitsAfterTp, h]
  · cases tpo <;> cases slo <;> cases slRes <;>
      simp [VolTrader.replaceExitsAfterTp, h]

/-- Witness for C1: a surviving LONG leg (SL 94, old exits T1/S1) at base
price 100.  With the price at 101 the rewrite sets TP = 100; with the price
at 99 (past base) or a failed TP placement, the leg is market-closed with
reason `base-close`. -/
theorem c1_volatility_tp_rewrite_witness :
    (VolTrader.replaceExitsAfterTp 100 (some 101) []
      { id := "VPOS-LONG-X", direction := .LONG, entryPrice := 100, quantity := 3
        takeProfitPrice := 103, stopLossPrice := 94, tpOrderId := some "T1"
        slOrderId := some "S1", isClosing := false }
      (.ok "T2") (.ok "S2")).1.takeProfitPrice = 100 ∧
    (VolTrader.replaceExitsAfterTp 100 (some 99) []
      { id := "VPOS-LONG-X", direction := .LONG, entryPrice := 100, quantity := 3
        takeProfitPrice := 103, stopLossPrice := 94, tpOrderId := some "T1"
        slOrderId := some "S1", isClosing := false }
      (.ok "T2") (.ok "S2")).2.2.1
      = VolTrader.ReplaceOutcome.closedAtMarket "base-close" (jsOrNum (some 99) 100) ∧
    (VolTrader.replaceExitsAfterTp 100 (some 101) []
      { id := "VPOS-LONG-X", direction := .LONG, entryPrice := 100, quantity := 3
        takeProfitPrice := 103, stopLossPrice := 94, tpOrderId := some "T1"
        slOrderId := some "S1", isClosing := false }
      (.err "boom") (.ok "S2")).2.2.1
      = VolTrader.ReplaceOutcome.closedAtMarket "base-close" (jsOrNum (some 101) 100) :=
  ⟨(((c1_volatility_tp_rewrite 100 (some 101) []
      { id := "VPOS-LONG-X", direction := .LONG, entryPrice := 100, quantity := 3
        takeProfitPrice := 103, stopLossPrice := 94, tpOrderId := some "T1"
        slOrderId := some "S1", isClosing := false }
      "T2" "S2" "boom").1 (by decide)).1 (.ok "S2")).1,
   ((c1_volatility_tp_rewrite 100 (some 99) []
      { id := "VPOS-LONG-X", direction := .LONG, entryPrice := 100, quantity := 3
        takeProfitPrice := 103, stopLossPrice := 94, tpOrderId := some "T1"
        slOrderId := some "S1", isClosing := false }
      "T2" "S2" "boom").2.1 (by decide) (.ok "T2") (.ok "S2")),
   ((c1_volatility_tp_rewrite 100 (some 101) []
      { id := "VPOS-LONG-X", direction := .LONG, entryPrice := 100, quantity := 3
        takeProfitPrice := 103, stopLossPrice := 94, tpOrderId := some "T1"
        slOrderId := some "S1", isClosing := false }
      "T2" "S2" "boom").2.2 (by decide) (.ok "S2"))⟩

/-- JS `x || y` over possibly-absent numbers, keeping absence: `null`,
`undefined` and `0` fall through to `y`. -/
def jsOrOpt (x y : Option ℚ) : Option ℚ :=
  match x with
  | none => y
  | some v => if v = 0 then y else some v

namespace Trader

/-- A `tradeHistory` entry (trader.js lines 431–436). -/
structure TradeRecord where
  entry : ℚ
  exitPrice : ℚ
  pnl : ℚ
  reason : String
  deriving Repr, DecidableEq

/-- The mutable fields of a Grid `Trader` instance. -/
structure State where
  id : String
  symbol : String
  basePrice : Option ℚ
  lastPrice : Option ℚ
  active : Bool
  realizedPnl : ℚ
  feesPaid : ℚ
  tradeHistory : List TradeRecord
  pendingEntriesById : List PendingEntry
  pendingExitsById : List PendingExit
  positions : List Position
  deriving Repr, DecidableEq

/-- `_calcPnl`: `(exit − entry) × qty × (LONG ? 1 : −1)`. -/
def calcPnl (pos : Position) (exitPrice : ℚ) : ℚ :=
  (exitPrice - pos.entryPrice) * pos.quantity * dirSign pos.direction

/-- `_estimateFees`: `(entry + exit) × qty × feeRate`. -/
def estimateFees (c : Config) (entryPrice exitPrice quantity : ℚ) : ℚ :=
  (entryPrice + exitPrice) * quantity * c.feeRate

/-- `pos.direction === "LONG" ? "SELL" : "BUY"` (`_closePosition`). -/
def closeSide : Direction → Side
  | .LONG => .SELL
  | .SHORT => .BUY

/-- `_finalizeClose(pos, reason, exitPrice, exitOrderId)` (trader.js lines
407–449).  `liveSummary` is the reconciled `{grossPnl, fees}` when mode is
live and the fetch succeeds with trades; the returned `Bool` is whether the
tail `destroy` would fire (`reason ∈ {take-profit, stop-loss}`).  An absent
exit price (JS `NaN` arithmetic) cannot occur once a position exists and is
read as `0`. -/
def finalizeClose (c : Config) (s : State) (pos : Position) (reason : String)
    (exitPrice : Option ℚ) (liveSummary : Option (ℚ × ℚ)) :
    State × List ApiCall × Bool :=
  if pos.isClosing then (s, [], false)
  else
    let cancelTp := match pos.tpOrderId with
      | some t => [ApiCall.cancelOrder t]
      | none => []
    let cancelSl := match pos.slOrderId with
      | some t => [ApiCall.cancelOrder t]
      | none => []
    let price := exitPrice.getD 0
    let est : ℚ × ℚ := (calcPnl pos price, estimateFees c pos.entryPrice price pos.quantity)
    let pf :=
      if c.mode = "live" then (match liveSummary with | some l => l | none => est)
      else est
    let s' := { s with
      positions := s.positions.filter (fun p => p.id ≠ pos.id)
      realizedPnl := s.realizedPnl + (pf.1 - pf.2)
      feesPaid := s.feesPaid + pf.2
      tradeHistory := s.tradeHistory ++ [⟨pos.entryPrice, price, pf.1 - pf.2, reason⟩] }
    (s', cancelTp ++ cancelSl ++ [ApiCall.recordTrade pf.1 pf.2],
     reason == "take-profit" || reason == "stop-loss")

/-- `_closePosition(pos, reason, fallbackPrice)` (trader.js lines 394–405):
market-close, then finalize at `result.price || fallbackPrice`. -/
def closePosition (c : Config) (s : State) (pos : Position) (reason : String)
    (fallbackPrice : Option ℚ) (fillPrice : Option ℚ)
    (liveSummary : Option (ℚ × ℚ)) : State × List ApiCall × Bool :=
  let r := finalizeClose c s pos reason (jsOrOpt fillPrice fallbackPrice) liveSummary
  (r.1, ApiCall.placeMarket (closeSide pos.direction) pos.quantity :: r.2.1, r.2.2)

/-- `_closeAllPositions(reason, fallbackPrice)` over a snapshot of the
positions map; `fills` / `lives` are the adapter's market-fill price and
live-trade summary per position.  The tail-destroy flag of each finalize is
dropped: the only caller (`destroy`) runs with `reason = "destroy"`, for
which it is `false`. -/
def closeAllPositions (c : Config) (reason : String) (fallbackPrice : Option ℚ)
    (fills : Position → Option ℚ) (lives : Position → Option (ℚ × ℚ)) :
    State → List Position → State × List ApiCall
  | s, [] => (s, [])
  | s, pos :: rest =>
    let r := closePosition c s pos reason fallbackPrice (fills pos) (lives pos)
    let r2 := closeAllPositions c reason fallbackPrice fills lives r.1 rest
    (r2.1, r.2.1 ++ r2.2)

/-- `destroy(reason, {closePositions})` (trader.js lines 82–119): no-op when
already inactive; otherwise clear `active`, cancel every pending entry and
exit, cancel all open orders, optionally market-close every position at
`lastPrice || basePrice`, report to the store and fire `onDestroy(symbol,
realizedPnl)`. -/
def destroy (c : Config) (s : State) (reason : String) (closePositions : Bool)
    (fills : Position → Option ℚ) (lives : Position → Option (ℚ × ℚ)) :
    State × List ApiCall :=
  if s.active then
    let s1 : State := { s with active := false }
    let acts :=
      (s1.pendingEntriesById.map fun o => ApiCall.cancelOrder o.orderId) ++
      (s1.pendingExitsById.map fun o => ApiCall.cancelOrder o.orderId) ++
      [ApiCall.cancelAllOpenOrders]
    let closed :=
      if closePositions then
        closeAllPositions c "destroy" (jsOrOpt s1.lastPrice s1.basePrice) fills lives
          s1 s1.positions
      else (s1, [])
    (closed.1,
     acts ++ closed.2 ++
       [ApiCall.removeTrader s.id, ApiCall.onDestroy s.symbol (some closed.1.realizedPnl)])
  else (s, [])

theorem finalizeClose_active (c : Config) (s : State) (pos : Position)
    (reason : String) (exitPrice : Option ℚ) (live : Option (ℚ × ℚ)) :
    (finalizeClose c s pos reason exitPrice live).1.active = s.active := by
  simp only [finalizeClose]
  split <;> rfl

theorem closePosition_active (c : Config) (s : State) (pos : Position)
    (reason : String) (fb fp : Option ℚ) (live : Option (ℚ × ℚ)) :
    (closePosition c s pos reason fb fp live).1.active = s.active := by
  simp only [closePosition]
  exact finalizeClose_active ..

theorem closeAllPositions_active (c : Config) (reason : String) (fb : Option ℚ)
    (fills : Position → Option ℚ) (lives : Position → Option (ℚ × ℚ))
    (ps : List Position) (s : State) :
    (closeAllPositions c reason fb fills lives s ps).1.active = s.active := by
  induction ps generalizing s with
  | nil => rfl
  | cons p rest ih =>
      simp only [closeAllPositions]
      rw [ih, closePosition_active]

theorem destroy_active_false (c : Config) (s : State) (reason : String)
    (cp : Bool) (fills : Position → Option ℚ) (lives : Position → Option (ℚ × ℚ)) :
    (destroy c s reason cp fills lives).1.active = false := by
  simp only [destroy]
  by_cases h : s.active
  · rw [if_pos h]
    split
    · rw [closeAllPositions_active]
    · rfl
  · rw [if_neg h]
    simpa using h

theorem destroy_inactive (c : Config) (s : State) (reason : String)
    (cp : Bool) (fills : Position → Option ℚ) (lives : Position → Option (ℚ × ℚ))
    (h : s.active = false) :
    destroy c s reason cp fills lives = (s, []) := by
  simp [destroy, h]

end Trader

namespace VolTrader

/-- A Volatility `tradeHistory` entry (volatilityTrader.js lines 461–467). -/
structure VolTradeRecord where
  entry : ℚ
  exitPrice : ℚ
  pnl : ℚ
  reason : String
  direction : Direction
  deriving Repr, DecidableEq

/-- The mutable fields of a `VolatilityTrader` instance. -/
structure VolState where
  id : String
  symbol : String
  basePrice : Option ℚ
  lastPrice : Option ℚ
  active : Bool
  realizedPnl : ℚ
  feesPaid : ℚ
  tradeHistory : List VolTradeRecord
  pendingExitsById : List Trader.PendingExit
  positions : List VolPosition
  tpHitSide : Option Direction
  deriving Repr, DecidableEq

/-- `_calcPnl` (volatilityTrader.js lines 504–507). -/
def calcPnl (pos : VolPosition) (exitPrice : ℚ) : ℚ :=
  (exitPrice - pos.entryPrice) * pos.quantity * dirSign pos.direction

/-- `_estimateFees` (volatilityTrader.js lines 509–512). -/
def estimateFees (c : Config) (entryPrice exitPrice quantity : ℚ) : ℚ :=
  (entryPrice + exitPrice) * quantity * c.feeRate

/-- `_finalizeClose(pos, reason, exitPrice, exitOrderId)` (volatilityTrader.js
lines 429–489): cancel and drop the leg's exits from `pendingExitsById`,
realise P&L, append history, record the trade.  The two returned flags are
the tail conditions — "first TP, adjust the other side" and "both sides
closed, destroy"; inside `destroy` both are moot (the recursive `destroy` is
guarded by `active = false`). -/
def finalizeClose (c : Config) (s : VolState) (pos : VolPosition) (reason : String)
    (exitPrice : Option ℚ) (liveSummary : Option (ℚ × ℚ)) :
    VolState × List ApiCall × Bool × Bool :=
  if pos.isClosing then (s, [], false, false)
  else
    let step1 :=
      match pos.tpOrderId with
      | some t =>
          ({ s with pendingExitsById :=
              s.pendingExitsById.filter (fun (pe : Trader.PendingExit) => pe.orderId ≠ t) },
           [ApiCall.cancelOrder t])
      | none => (s, [])
    let step2 :=
      match pos.slOrderId with
      | some t =>
          ({ step1.1 with pendingExitsById :=
              step1.1.pendingExitsById.filter (fun (pe : Trader.PendingExit) => pe.orderId ≠ t) },
           step1.2 ++ [ApiCall.cancelOrder t])
      | none => step1
    let s0 := step2.1
    let price := exitPrice.getD 0
    let est : ℚ × ℚ := (calcPnl pos price, estimateFees c pos.entryPrice price pos.quantity)
    let pf :=
      if c.mode = "live" then (match liveSummary with | some l => l | none => est)
      else est
    let positions' := s0.positions.filter (fun (p : VolPosition) => p.id ≠ pos.id)
    let s' := { s0 with
      positions := positions'
      realizedPnl := s0.realizedPnl + (pf.1 - pf.2)
      feesPaid := s0.feesPaid + pf.2
      tradeHistory := s0.tradeHistory ++ [⟨pos.entryPrice, price, pf.1 - pf.2, reason, pos.direction⟩] }
    (s', step2.2 ++ [ApiCall.recordTrade pf.1 pf.2],
     reason == "take-profit" && !positions'.isEmpty,
     positions'.isEmpty)

/-- `_closePosition` (volatilityTrader.js lines 416–427). -/
def closePosition (c : Config) (s : VolState) (pos : VolPosition) (reason : String)
    (fallbackPrice : Option ℚ) (fillPrice : Option ℚ)
    (liveSummary : Option (ℚ × ℚ)) : VolState × List ApiCall × Bool × Bool :=
  let r := finalizeClose c s pos reason (jsOrOpt fillPrice fallbackPrice) liveSummary
  (r.1, ApiCall.placeMarket (exitSide pos.direction) pos.quantity :: r.2.1, r.2.2)

/-- `_closeAllPositions` (volatilityTrader.js lines 410–414) over a snapshot
of the positions map. -/
def closeAllPositions (c : Config) (reason : String) (fallbackPrice : Option ℚ)
    (fills : VolPosition → Option ℚ) (lives : VolPosition → Option (ℚ × ℚ)) :
    VolState → List VolPosition → VolState × List ApiCall
  | s, [] => (s, [])
  | s, pos :: rest =>
    let r := closePosition c s pos reason fallbackPrice (fills pos) (lives pos)
    let r2 := closeAllPositions c reason fallbackPrice fills lives r.1 rest
    (r2.1, r.2.1 ++ r2.2)

/-- `destroy(reason, {closePositions})` (volatilityTrader.js lines 523–554).
Note the terminal callback is `onDestroy(this.symbol)` — no P&L argument. -/
def destroy (c : Config) (s : VolState) (reason : String) (closePositions : Bool)
    (fills : VolPosition → Option ℚ) (lives : VolPosition → Option (ℚ × ℚ)) :
    VolState × List ApiCall :=
  if s.active then
    let s1 : VolState := { s with active := false }
    let acts :=
      (s1.pendingExitsById.map fun o => ApiCall.cancelOrder o.orderId) ++
      [ApiCall.cancelAllOpenOrders]
    let closed :=
      if closePositions then
        closeAllPositions c "destroy" (jsOrOpt s1.lastPrice s1.basePrice) fills lives
          s1 s1.positions
      else (s1, [])
    (closed.1,
     acts ++ closed.2 ++
       [ApiCall.removeTrader s.id, ApiCall.onDestroy s.symbol none])
  else (s, [])

theorem finalizeClose_vol_active (c : Config) (s : VolState) (pos : VolPosition)
    (reason : String) (exitPrice : Option ℚ) (live : Option (ℚ × ℚ)) :
    (finalizeClose c s pos reason exitPrice live).1.active = s.active := by
  simp only [finalizeClose]
  split
  · rfl
  · cases pos.tpOrderId <;> cases pos.slOrderId <;> rfl

theorem closePosition_vol_active (c : Config) (s : VolState) (pos : VolPosition)
    (reason : String) (fb fp : Option ℚ) (live : Option (ℚ × ℚ)) :
    (closePosition c s pos reason fb fp live).1.active = s.active := by
  simp only [closePosition]
  exact finalizeClose_vol_active ..

theorem closeAllPositions_vol_active (c : Config) (reason : String) (fb : Option ℚ)
    (fills : VolPosition → Option ℚ) (lives : VolPosition → Option (ℚ × ℚ))
    (ps : List VolPosition) (s : VolState) :
    (closeAllPositions c reason fb fills lives s ps).1.active = s.active := by
  induction ps generalizing s with
  | nil => rfl
  | cons p rest ih =>
      simp only [closeAllPositions]
      rw [ih, closePosition_vol_active]

theorem destroy_vol_active_false (c : Config) (s : VolState) (reason : String)
    (cp : Bool) (fills : VolPosition → Option ℚ) (lives : VolPosition → Option (ℚ × ℚ)) :
    (destroy c s reason cp fills lives).1.active = false := by
  simp only [destroy]
  by_cases h : s.active
  · rw [if_pos h]
    split
    · rw [closeAllPositions_vol_active]
    · rfl
  · rw [if_neg h]
    simpa using h

theorem destroy_vol_inactive (c : Config) (s : VolState) (reason : String)
    (cp : Bool) (fills : VolPosition → Option ℚ) (lives : VolPosition → Option (ℚ × ℚ))
    (h : s.active = false) :
    destroy c s reason cp fills lives = (s, []) := by
  simp [destroy, h]

end VolTrader

/-- C8. `destroy(reason)` is idempotent for both trader kinds: a second call
after a completed first call returns the state unchanged and performs no
adapter or store calls (no cancellations, no market closes, no
`removeTrader`, no `onDestroy`), because `active` is already `false`. -/
theorem c8_destroy_idempotent (c : Config) (gs : Trader.State) (vs : VolTrader.VolState)
    (r1 r2 : String) (cp1 cp2 : Bool)
    (f1 f2 : Trader.Position → Option ℚ) (l1 l2 : Trader.Position → Option (ℚ × ℚ))
    (vf1 vf2 : VolTrader.VolPosition → Option ℚ)
    (vl1 vl2 : VolTrader.VolPosition → Option (ℚ × ℚ)) :
    Trader.destroy c (Trader.destroy c gs r1 cp1 f1 l1).1 r2 cp2 f2 l2
      = ((Trader.destroy c gs r1 cp1 f1 l1).1, []) ∧
    VolTrader.destroy c (VolTrader.destroy c vs r1 cp1 vf1 vl1).1 r2 cp2 vf2 vl2
      = ((VolTrader.destroy c vs r1 cp1 vf1 vl1).1, []) :=
  ⟨Trader.destroy_inactive c _ r2 cp2 f2 l2 (Trader.destroy_active_false c gs r1 cp1 f1 l1),
   VolTrader.destroy_vol_inactive c _ r2 cp2 vf2 vl2
     (VolTrader.destroy_vol_active_false c vs r1 cp1 vf1 vl1)⟩

namespace Controller

/-- One `failedSymbols` entry: `{ count, until }` (controller.js line 12). -/
structure FailureInfo where
  count : Nat
  untilMs : Nat
  deriving Repr, DecidableEq

/-- The Supervisor state (controller.js constructor). -/
structure CState where
  traders : List String
  leverageSet : List String
  failedSymbols : List (String × FailureInfo)
  consecutiveLosses : Nat
  lossCooldownUntil : Nat
  deriving Repr, DecidableEq

/-- `_destroy(symbol, pnl)` (controller.js lines 155–180): drop the trader
and, when a numeric P&L was reported, update the consecutive-loss counter and
the global loss cooldown.  (`_refreshMarketStreams` only talks to the
adapter.) -/
def destroyHandler (s : CState) (symbol : String) (pnl : Option ℚ) (now : Nat) : CState :=
  if symbol ∈ s.traders then
    let s1 := { s with traders := s.traders.filter (fun t => t ≠ symbol) }
    match pnl with
    | none => s1
    | some p =>
      if p < 0 then
        let cl := s1.consecutiveLosses + 1
        let s2 := { s1 with consecutiveLosses := cl }
        if 2 ≤ cl then
          let cooldownMin : Nat := if 4 ≤ cl then 60 else if 3 ≤ cl then 30 else 15
          { s2 with lossCooldownUntil := now + cooldownMin * 60 * 1000 }
        else s2
      else { s1 with consecutiveLosses := 0, lossCooldownUntil := 0 }
  else s

/-- The environment `_scanAndLaunch` reads besides its own state: config
values, the current UTC hour, and the outcome of the per-symbol
`setLeverage` and `trader.start()` calls. -/
structure ScanEnv where
  maxTraders : Nat
  mode : String
  enableTradingWindow : Bool
  utcHour : Nat
  leverageOk : String → Bool
  startOk : String → Bool

/-- `trader.start()` step of the launch loop (controller.js lines 110–130):
append on success; on failure restore the map and back off 5/15/60 minutes
by failure count. -/
def launchStart (env : ScanEnv) (now : Nat) (s : CState) (sym : String) : CState × Bool :=
  if env.startOk sym then
    ({ s with traders := s.traders ++ [sym] }, true)
  else
    let prevCount :=
      match s.failedSymbols.lookup sym with
      | some f => f.count
      | none => 0
    let count := prevCount + 1
    let cooldown : Nat := if 3 ≤ count then 60 else if 2 ≤ count then 15 else 5
    ({ s with failedSymbols :=
        (s.failedSymbols.filter (fun kv => kv.1 ≠ sym)) ++
          [(sym, ⟨count, now + cooldown * 60 * 1000⟩)] },
     false)

/-- Leverage gate plus start (controller.js lines 99–130): in live mode set
leverage once per symbol, skipping the symbol when that fails. -/
def launchSymbol (env : ScanEnv) (now : Nat) (s : CState) (sym : String) : CState × Bool :=
  if env.mode = "live" ∧ sym ∉ s.leverageSet then
    if env.leverageOk sym then
      launchStart env now { s with leverageSet := s.leverageSet ++ [sym] } sym
    else (s, false)
  else launchStart env now s sym

/-- The candidate loop of `_scanAndLaunch` (controller.js lines 90–131),
returning the updated state and the symbols launched. -/
def launchLoop (env : ScanEnv) (now : Nat) : CState → List String → CState × List String
  | s, [] => (s, [])
  | s, sym :: rest =>
    if env.maxTraders ≤ s.traders.length then (s, [])
    else if sym ∈ s.traders then launchLoop env now s rest
    else
      match s.failedSymbols.lookup sym with
      | some f =>
        if now < f.untilMs then launchLoop env now s rest
        else
          let s' := { s with failedSymbols := s.failedSymbols.filter (fun kv => kv.1 ≠ sym) }
          let r := launchSymbol env now s' sym
          let r2 := launchLoop env now r.1 rest
          (r2.1, (if r.2 then [sym] else []) ++ r2.2)
      | none =>
        let r := launchSymbol env now s sym
        let r2 := launchLoop env now r.1 rest
        (r2.1, (if r.2 then [sym] else []) ++ r2.2)

/-- `_scanAndLaunch` (controller.js lines 70–134): return early on a full
slot table, an active loss cooldown, or a closed trading window; otherwise
run the launch loop over the scanner's candidates. -/
def scanAndLaunch (env : ScanEnv) (s : CState) (now : Nat)
    (candidates : List String) : CState × List String :=
  if env.maxTraders ≤ s.traders.length then (s, [])
  else if now < s.lossCooldownUntil then (s, [])
  else if env.enableTradingWindow ∧ ¬ (3 ≤ env.utcHour ∧ env.utcHour < 9) then (s, [])
  else launchLoop env now s candidates

end Controller

/-- C6. A termination reported with P&L < 0 increments `consecutiveLosses`
and arms the cooldown at 15/30/60 minutes for 2/3/≥4 losses; a termination
with P&L ≥ 0 resets both; and while the cooldown is armed `_scanAndLaunch`
returns without launching anything. -/
theorem c6_consecutive_loss_cooldown (s : Controller.CState) (symbol : String)
    (p : ℚ) (now : Nat) (env : Controller.ScanEnv) (candidates : List String)
    (hmem : symbol ∈ s.traders) :
    (p < 0 →
      (Controller.destroyHandler s symbol (some p) now).consecutiveLosses
          = s.consecutiveLosses + 1 ∧
      ((Controller.destroyHandler s symbol (some p) now).consecutiveLosses = 2 →
        (Controller.destroyHandler s symbol (some p) now).lossCooldownUntil
          = now + 15 * 60 * 1000) ∧
      ((Controller.destroyHandler s symbol (some p) now).consecutiveLosses = 3 →
        (Controller.destroyHandler s symbol (some p) now).lossCooldownUntil
          = now + 30 * 60 * 1000) ∧
      (4 ≤ (Controller.destroyHandler s symbol (some p) now).consecutiveLosses →
        (Controller.destroyHandler s symbol (some p) now).lossCooldownUntil
          = now + 60 * 60 * 1000)) ∧
    (0 ≤ p →
      (Controller.destroyHandler s symbol (some p) now).consecutiveLosses = 0 ∧
      (Controller.destroyHandler s symbol (some p) now).lossCooldownUntil = 0) ∧
    (now < s.lossCooldownUntil →
      Controller.scanAndLaunch env s now candidates = (s, [])) := by
  refine ⟨fun hneg => ?_, fun hpos => ?_, fun hcool => ?_⟩
  · have hcl : (Controller.destroyHandler s symbol (some p) now).consecutiveLosses
        = s.consecutiveLosses + 1 := by
      simp only [Controller.destroyHandler, if_pos hmem, if_pos hneg]
      split <;> rfl
    have hcd : (Controller.destroyHandler s symbol (some p) now).lossCooldownUntil
        = if 2 ≤ s.consecutiveLosses + 1 then
            now + (if 4 ≤ s.consecutiveLosses + 1 then 60
                   else if 3 ≤ s.consecutiveLosses + 1 then 30 else 15) * 60 * 1000
          else s.lossCooldownUntil := by
      simp only [Controller.destroyHandler, if_pos hmem, if_pos hneg]
      split <;> rfl
    refine ⟨hcl, fun h2 => ?_, fun h3 => ?_, fun h4 => ?_⟩
    · rw [hcl] at h2
      rw [hcd, if_pos (by omega), if_neg (by omega), if_neg (by omega)]
    · rw [hcl] at h3
      rw [hcd, if_pos (by omega), if_neg (by omega), if_pos (by omega)]
    · rw [hcl] at h4
      rw [hcd, if_pos (by omega), if_pos (by omega)]
  · have hnneg : ¬ p < 0 := not_lt.mpr hpos
    exact ⟨by simp only [Controller.destroyHandler, if_pos hmem, if_neg hnneg],
           by simp only [Controller.destroyHandler, if_pos hmem, if_neg hnneg]⟩
  · simp only [Controller.scanAndLaunch]
    by_cases hmax : env.maxTraders ≤ s.traders.length
    · rw [if_pos hmax]
    · rw [if_neg hmax, if_pos hcool]

/-- Concrete Supervisor state for the C6 witness: one active trader, one
prior consecutive loss, cooldown armed until t = 999. -/
def c6s : Controller.CState :=
  { traders := ["A"], leverageSet := [], failedSymbols := []
    consecutiveLosses := 1, lossCooldownUntil := 999 }

/-- Concrete scan environment for the C6 witness. -/
def c6env : Controller.ScanEnv :=
  { maxTraders := 2, mode := "test", enableTradingWindow := false, utcHour := 5
    leverageOk := fun _ => true, startOk := fun _ => true }

/-- Witness for C6: a second loss of −3 at t = 5 sets the counter to 2 and
the cooldown to t + 15 min; a gain of +2 resets both; and an armed cooldown
makes `scanAndLaunch` a no-op. -/
theorem c6_consecutive_loss_cooldown_witness :
    "A" ∈ c6s.traders ∧ (-3 : ℚ) < 0 ∧ (0 : ℚ) ≤ 2 ∧ 5 < c6s.lossCooldownUntil ∧
    (Controller.destroyHandler c6s "A" (some (-3)) 5).consecutiveLosses = 2 ∧
    (Controller.destroyHandler c6s "A" (some (-3)) 5).lossCooldownUntil
      = 5 + 15 * 60 * 1000 ∧
    (Controller.destroyHandler c6s "A" (some 2) 5).consecutiveLosses = 0 ∧
    (Controller.destroyHandler c6s "A" (some 2) 5).lossCooldownUntil = 0 ∧
    Controller.scanAndLaunch c6env c6s 5 ["B"] = (c6s, []) := by
  have T := c6_consecutive_loss_cooldown c6s "A" (-3) 5 c6env ["B"] (by decide)
  have T2 := c6_consecutive_loss_cooldown c6s "A" 2 5 c6env ["B"] (by decide)
  have hcl : (Controller.destroyHandler c6s "A" (some (-3)) 5).consecutiveLosses = 2 := by
    simpa [c6s] using (T.1 (by norm_num)).1
  refine ⟨by decide, by norm_num, by norm_num, by decide, hcl, ?_, ?_, ?_, ?_⟩
  · exact (T.1 (by norm_num)).2.1 hcl
  · exact (T2.2.1 (by norm_num)).1
  · exact (T2.2.1 (by norm_num)).2
  · exact T.2.2 (by decide)

namespace VolTrader

theorem finalizeClose_no_onDestroy (c : Config) (s : VolState) (pos : VolPosition)
    (reason : String) (ep : Option ℚ) (live : Option (ℚ × ℚ))
    (x : String) (pnl : Option ℚ) :
    ApiCall.onDestroy x pnl ∉ (finalizeClose c s pos reason ep live).2.1 := by
  simp only [finalizeClose]
  split
  · simp
  · cases pos.tpOrderId <;> cases pos.slOrderId <;> simp

theorem closePosition_no_onDestroy (c : Config) (s : VolState) (pos : VolPosition)
    (reason : String) (fb fp : Option ℚ) (live : Option (ℚ × ℚ))
    (x : String) (pnl : Option ℚ) :
    ApiCall.onDestroy x pnl ∉ (closePosition c s pos reason fb fp live).2.1 := by
  intro h
  simp only [closePosition, List.mem_cons] at h
  rcases h with h | h
  · exact ApiCall.noConfusion h
  · exact finalizeClose_no_onDestroy c s pos reason (jsOrOpt fp fb) live x pnl h

theorem closeAllPositions_no_onDestroy (c : Config) (reason : String)
    (fb : Option ℚ) (fills : VolPosition → Option ℚ)
    (lives : VolPosition → Option (ℚ × ℚ)) (ps : List VolPosition)
    (x : String) (pnl : Option ℚ) :
    ∀ s : VolState, ApiCall.onDestroy x pnl ∉ (closeAllPositions c reason fb fills lives s ps).2 := by
  induction ps with
  | nil => intro s h; simp [closeAllPositions] at h
  | cons p rest ih =>
      intro s h
      simp only [closeAllPositions, List.mem_append] at h
      rcases h with h | h
      · exact closePosition_no_onDestroy c s p reason fb (fills p) (lives p) x pnl h
      · exact ih _ h

end VolTrader

/-- C10 (implicit). `VolatilityTrader.destroy` reports no P&L: its effect
list never contains an `onDestroy` carrying a numeric P&L, and an active
trader's destroy fires exactly `onDestroy(symbol)` with none; consequently
the Supervisor's `_destroy`, receiving no numeric pnl, leaves
`consecutiveLosses`, `lossCooldownUntil`, `leverageSet` and `failedSymbols`
unchanged and only removes the symbol from the trader map. -/
theorem c10_vol_destroy_no_cooldown_effect (c : Config) (vs : VolTrader.VolState)
    (reason : String) (cp : Bool) (fills : VolTrader.VolPosition → Option ℚ)
    (lives : VolTrader.VolPosition → Option (ℚ × ℚ))
    (s : Controller.CState) (now : Nat) :
    (∀ p : ℚ, ApiCall.onDestroy vs.symbol (some p)
        ∉ (VolTrader.destroy c vs reason cp fills lives).2) ∧
    (vs.active = true →
      ApiCall.onDestroy vs.symbol none ∈ (VolTrader.destroy c vs reason cp fills lives).2) ∧
    (Controller.destroyHandler s vs.symbol none now).consecutiveLosses
        = s.consecutiveLosses ∧
    (Controller.destroyHandler s vs.symbol none now).lossCooldownUntil
        = s.lossCooldownUntil ∧
    (Controller.destroyHandler s vs.symbol none now).leverageSet = s.leverageSet ∧
    (Controller.destroyHandler s vs.symbol none now).failedSymbols = s.failedSymbols ∧
    (Controller.destroyHandler s vs.symbol none now).traders
        = (if vs.symbol ∈ s.traders
           then s.traders.filter (fun t => t ≠ vs.symbol) else s.traders) := by
  refine ⟨fun p h => ?_, fun ha => ?_, ?_, ?_, ?_, ?_, ?_⟩
  · simp only [VolTrader.destroy] at h
    by_cases hact : vs.active
    · rw [if_pos hact] at h
      simp only [List.mem_append, List.mem_map, List.mem_cons,
        List.mem_singleton, List.not_mem_nil] at h
      rcases h with ((⟨o, _, ho⟩ | h) | h) | (h | h | h)
      · exact ApiCall.noConfusion ho
      · simp at h
      · revert h
        split
        · exact VolTrader.closeAllPositions_no_onDestroy c "destroy" _ fills lives _ _ _ _
        · simp
      · exact ApiCall.noConfusion h
      · simp at h
      · exact h
    · rw [if_neg hact] at h
      simp at h
  · rw [VolTrader.destroy, if_pos ha]
    simp
  · simp only [Controller.destroyHandler]
    split <;> rfl
  · simp only [Controller.destroyHandler]
    split <;> rfl
  · simp only [Controller.destroyHandler]
    split <;> rfl
  · simp only [Controller.destroyHandler]
    split <;> rfl
  · simp only [Controller.destroyHandler]
    split <;> rfl

/-- Concrete VolatilityTrader state for the C10 witness: an active trader on
"BTC" with a negative realised P&L of −7 and no open legs. -/
def c10vs : VolTrader.VolState :=
  { id := "VOL-1", symbol := "BTC", basePrice := some 100, lastPrice := some 100
    active := true, realizedPnl := -7, feesPaid := 1, tradeHistory := []
    pendingExitsById := [], positions := [], tpHitSide := none }

/-- Concrete Supervisor state for the C10 witness. -/
def c10cs : Controller.CState :=
  { traders := ["BTC"], leverageSet := ["BTC"], failedSymbols := []
    consecutiveLosses := 3, lossCooldownUntil := 42 }

/-- Concrete config for the C10 witness. -/
def c10cfg : Config :=
  { mode := "test", levelSpacingPercent := 1, takeProfitPercent := 1
    stopLossPercent := 1, volatilityTakeProfitPercent := 3
    volatilityStopLossPercent := 6, feeRate := 0 }

/-- Witness for C10: destroying the concrete trader (realised P&L −7) emits
`onDestroy("BTC")` with no P&L, never with one, and the Supervisor handler on
a P&L-less report leaves the loss counter and cooldown untouched. -/
theorem c10_vol_destroy_no_cooldown_effect_witness :
    c10vs.active = true ∧
    ApiCall.onDestroy c10vs.symbol none
      ∈ (VolTrader.destroy c10cfg c10vs "destroy" false
          (fun _ => none) (fun _ => none)).2 ∧
    ApiCall.onDestroy c10vs.symbol (some (-7))
      ∉ (VolTrader.destroy c10cfg c10vs "destroy" false
          (fun _ => none) (fun _ => none)).2 ∧
    (Controller.destroyHandler c10cs c10vs.symbol none 50).consecutiveLosses
      = c10cs.consecutiveLosses ∧
    (Controller.destroyHandler c10cs c10vs.symbol none 50).lossCooldownUntil
      = c10cs.lossCooldownUntil := by
  have T := c10_vol_destroy_no_cooldown_effect c10cfg c10vs "destroy" false
    (fun _ => none) (fun _ => none) c10cs 50
  exact ⟨rfl, T.2.1 rfl, T.1 (-7), T.2.2.1, T.2.2.2.1⟩

namespace Sim

/-- A simulator order in `testOrders` (binanceApi.js, `placeLimitOrder` /
`placeStopLimitOrder` test branches). -/
structure TestOrder where
  orderId : String
  symbol : String
  side : Side
  quantity : ℚ
  price : Option ℚ
  stopPrice : Option ℚ
  status : String
  type : String
  reduceOnly : Bool
  positionSide : Option String
  deriving Repr, DecidableEq

/-- A simulator net position in `testPositions`. -/
structure SimPosition where
  qty : ℚ
  entryPrice : ℚ
  deriving Repr, DecidableEq

/-- The simulator's mutable maps (`testOrders`, `testPositions`,
`testBalance`, `lastSimPrice`). -/
structure SimState where
  testOrders : List TestOrder
  testPositions : List (String × SimPosition)
  testBalance : ℚ
  lastSimPrice : List (String × ℚ)
  deriving Repr, DecidableEq

/-- JS `Map.set`: overwrite in place or append. -/
def setAssoc {β : Type} (l : List (String × β)) (k : String) (v : β) :
    List (String × β) :=
  if (l.lookup k).isSome then
    l.map (fun kv => if kv.1 = k then (k, v) else kv)
  else l ++ [(k, v)]

/-- JS `Math.sign`. -/
def jsSign (x : ℚ) : ℚ :=
  if 0 < x then 1 else if x < 0 then -1 else 0

/-- `_realizePnl(symbol, deltaQty, price)` (binanceApi.js lines 682–706):
average up when adding same-sign quantity, otherwise realise P&L on the
closed quantity; deduct fees at `feeRate × |qty × price|` from the test
balance.  Returns the state and `pnl − fee`. -/
def realizePnl (feeRate : ℚ) (s : SimState) (symbol : String) (deltaQty price : ℚ) :
    SimState × ℚ :=
  let pos := (s.testPositions.lookup symbol).getD ⟨0, 0⟩
  let newQty := pos.qty + deltaQty
  let step :=
    if pos.qty = 0 ∨ jsSign pos.qty = jsSign newQty then
      let totalNotional := pos.entryPrice * |pos.qty| + price * |deltaQty|
      let totalQty := |pos.qty| + |deltaQty|
      let avgPrice := if totalQty = 0 then 0 else totalNotional / totalQty
      ({ s with testPositions := setAssoc s.testPositions symbol ⟨newQty, avgPrice⟩ },
       (0 : ℚ))
    else
      let closedQty := min |pos.qty| |deltaQty|
      let direction : ℚ := if 0 < pos.qty then 1 else -1
      let pnl := (price - pos.entryPrice) * closedQty * direction
      ({ s with testPositions :=
          setAssoc s.testPositions symbol ⟨newQty, if newQty = 0 then 0 else price⟩ },
       pnl)
  let fee := |deltaQty * price| * feeRate
  ({ step.1 with testBalance := step.1.testBalance + (step.2 - fee) }, step.2 - fee)

/-- The trigger test of `_simulateFills` (binanceApi.js lines 712–721);
a JS comparison against an absent price is `false`. -/
def simTrigger (order : TestOrder) (markPrice : ℚ) : Bool :=
  if order.type = "LIMIT" then
    match order.price with
    | some p =>
      match order.side with
      | .BUY => decide (markPrice ≤ p)
      | .SELL => decide (p ≤ markPrice)
    | none => false
  else
    match order.stopPrice with
    | some sp =>
      match order.side with
      | .BUY => decide (sp ≤ markPrice)
      | .SELL => decide (markPrice ≤ sp)
    | none => false

/-- `filledImmediately` (binanceApi.js lines 724–727): a non-LIMIT order
whose stop the prior tick had already crossed (or with no prior tick) is
marked "stop already passed". -/
def alreadyPassedFlag (order : TestOrder) (prevPrice : Option ℚ) : Bool :=
  decide (order.type ≠ "LIMIT") &&
    (match prevPrice with
     | none => true
     | some pp =>
       match order.stopPrice with
       | some sp =>
         match order.side with
         | .BUY => decide (sp ≤ pp)
         | .SELL => decide (pp ≤ sp)
       | none => false)

/-- `Number.isFinite(order.price) ? order.price : order.stopPrice`
(binanceApi.js line 732); simulator stop orders always carry a stop price. -/
def fillPrice (order : TestOrder) : ℚ :=
  match order.price with
  | some p => p
  | none => order.stopPrice.getD 0

/-- One emitted `orderFilled` payload plus the "stop already passed"
diagnostic mark logged for that fill. -/
structure FillEvent where
  symbol : String
  orderId : String
  side : Side
  price : ℚ
  quantity : ℚ
  alreadyPassed : Bool
  deriving Repr, DecidableEq

/-- The body of the `_simulateFills` loop for one order. -/
def simulateStep (feeRate : ℚ) (symbol : String) (markPrice : ℚ)
    (prevPrice : Option ℚ) (acc : SimState × List FillEvent) (order : TestOrder) :
    SimState × List FillEvent :=
  if order.symbol = symbol ∧ order.status = "NEW" then
    if simTrigger order markPrice then
      let fp := fillPrice order
      let s1 := { acc.1 with testOrders :=
        acc.1.testOrders.filter (fun (o : TestOrder) => o.orderId ≠ order.orderId) }
      let qty := match order.side with
        | .BUY => order.quantity
        | .SELL => -order.quantity
      let r := realizePnl feeRate s1 symbol qty fp
      (r.1, acc.2 ++
        [⟨symbol, order.orderId, order.side, fp, order.quantity,
          alreadyPassedFlag order prevPrice⟩])
    else acc
  else acc

/-- `_simulateFills(symbol, markPrice)` (binanceApi.js lines 708–748):
replay the NEW orders of the symbol against the tick (the prior
`lastSimPrice` read once up front), then record the tick as the new
`lastSimPrice`. -/
def simulateFills (feeRate : ℚ) (s : SimState) (symbol : String) (markPrice : ℚ) :
    SimState × List FillEvent :=
  let prevPrice := s.lastSimPrice.lookup symbol
  let r := s.testOrders.foldl (simulateStep feeRate symbol markPrice prevPrice) (s, [])
  ({ r.1 with lastSimPrice := setAssoc r.1.lastSimPrice symbol markPrice }, r.2)

end Sim

/-- Counterexample to C7 as stated: with a NEW BUY stop order at 99 and ticks
98 then 100, the simulator fills the order at the second tick at price 99 but
does NOT mark it "stop already passed" — the diagnostic requires the prior
tick (98) to have already crossed the stop, which it has not. -/
theorem c7_already_passed_counterexample :
    (Sim.simulateFills 0
        (Sim.simulateFills 0
          ⟨[⟨"O1", "X", .BUY, 1, none, some 99, "NEW", "STOP_MARKET", true, some "LONG"⟩],
           [], 1000, []⟩ "X" 98).1 "X" 100).2
      = [⟨"X", "O1", .BUY, 99, 1, false⟩] ∧
    ¬ ∃ e ∈ (Sim.simulateFills 0
        (Sim.simulateFills 0
          ⟨[⟨"O1", "X", .BUY, 1, none, some 99, "NEW", "STOP_MARKET", true, some "LONG"⟩],
           [], 1000, []⟩ "X" 98).1 "X" 100).2, e.alreadyPassed = true := by
  decide

/-- C7 amended: with a BUY stop order at `sp` and ticks `p1 < sp ≤ p2`, the
first tick leaves the order untouched and the second fills it at the stop
price without the "already passed" mark; the mark fires exactly when the
prior recorded `lastSimPrice` had already crossed the stop. -/
theorem c7_sim_stop_gap_fill (sym oid : String) (q sp p1 p2 pp feeRate bal : ℚ)
    (h1 : p1 < sp) (h2 : sp ≤ p2) (hpp : sp ≤ pp) :
    (Sim.simulateFills feeRate
        ⟨[⟨oid, sym, .BUY, q, none, some sp, "NEW", "STOP_MARKET", true, some "LONG"⟩],
         [], bal, []⟩ sym p1).2 = [] ∧
    (Sim.simulateFills feeRate
        (Sim.simulateFills feeRate
          ⟨[⟨oid, sym, .BUY, q, none, some sp, "NEW", "STOP_MARKET", true, some "LONG"⟩],
           [], bal, []⟩ sym p1).1 sym p2).2
      = [⟨sym, oid, .BUY, sp, q, false⟩] ∧
    (Sim.simulateFills feeRate
        ⟨[⟨oid, sym, .BUY, q, none, some sp, "NEW", "STOP_MARKET", true, some "LONG"⟩],
         [], bal, [(sym, pp)]⟩ sym p2).2
      = [⟨sym, oid, .BUY, sp, q, true⟩] := by
  have hnt : ¬ (sp ≤ p1) := not_le.mpr h1
  refine ⟨?_, ?_, ?_⟩
  · simp [Sim.simulateFills, Sim.simulateStep, Sim.simTrigger, hnt]
  · simp [Sim.simulateFills, Sim.simulateStep, Sim.simTrigger, Sim.alreadyPassedFlag,
      Sim.fillPrice, Sim.setAssoc, Sim.realizePnl, hnt, h2, List.lookup]
  · simp [Sim.simulateFills, Sim.simulateStep, Sim.simTrigger, Sim.alreadyPassedFlag,
      Sim.fillPrice, Sim.setAssoc, Sim.realizePnl, h2, hpp, List.lookup]

/-- Witness for the amended C7 at the spec's literal inputs: stop 99, ticks
98 then 100 (and a prior tick at 100 for the genuinely-already-passed case). -/
theorem c7_sim_stop_gap_fill_witness :
    (98 : ℚ) < 99 ∧ (99 : ℚ) ≤ 100 ∧
    (Sim.simulateFills 0
        ⟨[⟨"O1", "X", .BUY, 1, none, some 99, "NEW", "STOP_MARKET", true, some "LONG"⟩],
         [], 1000, []⟩ "X" 98).2 = [] ∧
    (Sim.simulateFills 0
        (Sim.simulateFills 0
          ⟨[⟨"O1", "X", .BUY, 1, none, some 99, "NEW", "STOP_MARKET", true, some "LONG"⟩],
           [], 1000, []⟩ "X" 98).1 "X" 100).2
      = [⟨"X", "O1", .BUY, 99, 1, false⟩] ∧
    (Sim.simulateFills 0
        ⟨[⟨"O1", "X", .BUY, 1, none, some 99, "NEW", "STOP_MARKET", true, some "LONG"⟩],
         [], 1000, [("X", 100)]⟩ "X" 100).2
      = [⟨"X", "O1", .BUY, 99, 1, true⟩] := by
  have T := c7_sim_stop_gap_fill "X" "O1" 1 99 98 100 100 0 1000
    (by norm_num) (by norm_num) (by norm_num)
  exact ⟨by norm_num, by norm_num, T.1, T.2.1, T.2.2⟩
